import Mathlib

/-! Verification development for `cctbx/geometry_restraints/process_nonbonded_proxies.py`:
a shallow embedding of the clash / hydrogen-bond classification pipeline
(`check_if_1_5_interaction`, `cos_vec`, class `clashes`, class `hbonds`, class `manager`)
together with proofs about the specification's claims.

Modelling conventions:
* Python floats are modelled as real numbers.
* A Python `dict` / `OrderedDict` is modelled as an association list that keeps insertion
  order; updating an existing key keeps its position (CPython semantics).
* Code that can raise is modelled with `Except PyErr`.
* External collaborators (atom hierarchy, unit cell, symmetry machinery) are abstracted
  into an `Env` record of lookup functions; the coordinate transform
  `orthogonalize (R * fractionalize xyz + t)` applied to the acceptor's residue group,
  together with re-matching the transformed atom by name/altloc
  (`manager._residue_groups_rt_mx_ij`), is abstracted into `Env.symApply`.
-/

namespace PNP

/-- Exceptions the Python code can raise, by kind. -/
inductive PyErr where
  | typeErr
  | attrErr
  | keyErr
  | assertErr
  | nameErr
  | valueErr
deriving DecidableEq, Repr

/-- Lookup in an insertion-ordered dictionary (`d[k]` returning `None`-style option). -/
def odLookup {α β : Type} [DecidableEq α] : List (α × β) → α → Option β
  | [], _ => none
  | (k, v) :: rest, a => if k = a then some v else odLookup rest a

/-- Membership test for an insertion-ordered dictionary (`k in d`). -/
def odContains {α β : Type} [DecidableEq α] (d : List (α × β)) (a : α) : Bool :=
  (odLookup d a).isSome

/-- Assignment `d[k] = v`: replace in place if the key exists, else append
(CPython dict/OrderedDict update keeps the original position of an existing key). -/
def odInsert {α β : Type} [DecidableEq α] : List (α × β) → α → β → List (α × β)
  | [], a, b => [(a, b)]
  | (k, v) :: rest, a, b => if k = a then (a, b) :: rest else (k, v) :: odInsert rest a b

/-- Deletion `del d[k]`: remove the entry with the given key, if present. -/
def odErase {α β : Type} [DecidableEq α] : List (α × β) → α → List (α × β)
  | [], _ => []
  | (k, v) :: rest, a => if k = a then rest else (k, v) :: odErase rest a

/-- Mutation `d[k].append(n)` for a dictionary of lists (no-op when the key is absent;
in the source the key is always present when this is executed). -/
def odAppendAt {α : Type} [DecidableEq α] : List (α × List Nat) → α → Nat → List (α × List Nat)
  | [], _, _ => []
  | (k, v) :: rest, a, n => if k = a then (k, v ++ [n]) :: rest else (k, v) :: odAppendAt rest a n

/-- State of the breadth-first expansion in `check_if_1_5_interaction`:
`numbers` is the `atoms_numbers` dictionary, `used` the `used_connections` set,
`newC` the `new_connections` set. -/
structure OneFiveState where
  numbers : Nat → Option Nat
  used : Finset Nat
  newC : Finset Nat

/-- One iteration of the `for i in range(2,6)` loop of `check_if_1_5_interaction`:
collect the neighbours of the frontier, drop already used atoms, and record the
freshly reached atoms with label `i`. -/
def oneFiveStep (fsc : Nat → List Nat) (st : OneFiveState) (i : Nat) : OneFiveState :=
  let connections : Finset Nat := st.newC.biUnion fun k => (fsc k).toFinset
  let newConnections := connections \ st.used
  { numbers := fun a => if a ∈ newConnections then some i else st.numbers a
    used := st.used ∪ connections
    newC := newConnections }

/-- Embedding of `check_if_1_5_interaction(i_seq, j_seq, hd_sel, full_connectivity_table)`:
decides whether a hydrogen / heavy-atom pair is in 1-5 topological relation.
The source first requires exactly one of the two atoms to be a hydrogen
(`xor = lambda a,b: (a or b) and not (a and b)`), relabels so the traversal starts at
the hydrogen, runs the four expansion rounds labelled 2..5, and finally returns
`(j_seq in atoms_numbers) and (atoms_numbers[j_seq] == 5)`. -/
def check_if_1_5_interaction (i_seq j_seq : Nat) (hd_sel : Nat → Bool)
    (full_connectivity_table : Nat → List Nat) : Bool :=
  if (hd_sel i_seq || hd_sel j_seq) && !(hd_sel i_seq && hd_sel j_seq) then
    -- starting with hydrogen will make process shorter
    let i := if hd_sel i_seq then i_seq else j_seq
    let j := if hd_sel i_seq then j_seq else i_seq
    let st0 : OneFiveState :=
      { numbers := fun a => if a = i then some 0 else none
        used := {i}
        newC := {i} }
    let st := [2, 3, 4, 5].foldl (oneFiveStep full_connectivity_table) st0
    st.numbers j == some 5
  else false

/-- Model of Python's `str.strip().upper()` as used in
`atom_a.element.strip().upper()`: drop surrounding whitespace, then upper-case every
character. -/
def strip_upper (s : String) : String :=
  String.mk (((s.data.dropWhile Char.isWhitespace).reverse.dropWhile
    Char.isWhitespace).reverse.map Char.toUpper)

/-- The key canonicalisation applied before storing a clash
(`clash_tuple = [i_seq, j_seq]; clash_tuple.sort(); clash_tuple = tuple(clash_tuple)`
and likewise `tuple1` / `tuple2` in `_process_clashes`). -/
def sortedTuple (i j : Nat) : Nat × Nat := if i ≤ j then (i, j) else (j, i)

/-- All ordered index pairs `(lst[i], lst[j])` with `i < j`, enumerated in the order of
the double loop `for i in range(n-1): for j in range(i+1, n)` of `_process_clashes`. -/
def orderedPairs {α : Type} : List α → List (α × α)
  | [] => []
  | a :: t => (t.map fun b => (a, b)) ++ orderedPairs t

noncomputable section
open Classical

/-- A 3-d cartesian position (`scitbx.matrix.col` restricted to what the source uses). -/
structure Vec3 where
  x : ℝ
  y : ℝ
  z : ℝ

/-- Componentwise vector sum. -/
def Vec3.add (a b : Vec3) : Vec3 := ⟨a.x + b.x, a.y + b.y, a.z + b.z⟩

/-- Componentwise vector difference. -/
def Vec3.sub (a b : Vec3) : Vec3 := ⟨a.x - b.x, a.y - b.y, a.z - b.z⟩

/-- Scalar multiple of a vector (`u/2` in the source is `smul (1/2) u`). -/
def Vec3.smul (c : ℝ) (a : Vec3) : Vec3 := ⟨c * a.x, c * a.y, c * a.z⟩

/-- Dot product. -/
def Vec3.dot (a b : Vec3) : ℝ := a.x * b.x + a.y * b.y + a.z * b.z

/-- Euclidean length (`abs(self)` / `.length()` of `scitbx.matrix.col`). -/
def Vec3.length (a : Vec3) : ℝ := Real.sqrt (a.x ^ 2 + a.y ^ 2 + a.z ^ 2)

/-- Normalisation `self / abs(self)` of `scitbx.matrix.col`; on a zero vector the Python
version raises `ZeroDivisionError`, which `cos_vec` catches (see below). -/
def Vec3.normalize (a : Vec3) : Vec3 := Vec3.smul (1 / a.length) a

/-- Embedding of `cos_vec(u, v, w)`: the absolute cosine between `w - (u/2 + v/2)` and
`u - v`.  The `try/except ZeroDivisionError` of the source, which fires exactly when one
of the two vectors has zero length, is modelled by the explicit zero-length branch
returning 1. -/
def cos_vec (u v w : Vec3) : ℝ :=
  let vec1 := w.sub ((Vec3.smul (1 / 2) u).add (Vec3.smul (1 / 2) v))
  let vec2 := u.sub v
  if vec1.length = 0 ∨ vec2.length = 0 then 1
  else |vec1.normalize.dot vec2.normalize|

/-- One candidate nonbonded proxy, as produced by
`pair_proxies.nonbonded_proxies.get_sorted(...)`: the source unpacks
`item[1] .. item[6]` into i_seq, j_seq, model_distance, vdw_sum, symop_str, symop.
`symop_str` is `None`/empty (modelled `none`) when the pair is not symmetry related;
`symop` is the symmetry operator itself, kept abstract as its string form. -/
structure Item where
  i_seq : Nat
  j_seq : Nat
  model_distance : ℝ
  vdw_sum : ℝ
  symop_str : Option String
  symop : Option String

/-- A stored clash record `[model_distance, vdw_sum, abs(delta), symop_str, symop]`. -/
structure ClashRecord where
  model_distance : ℝ
  vdw_sum : ℝ
  overlap : ℝ
  symop_str : Option String
  symop : Option String

/-- A stored hydrogen-bond record
`[h_a_distance, x_a_distance, degrees(x_h_a_angle), symop_str, symop, vdw_sum]`. -/
structure HbondRecord where
  h_a_distance : ℝ
  x_a_distance : ℝ
  x_h_a_angle_deg : ℝ
  symop_str : Option String
  symop : Option String
  vdw_sum : ℝ

/-- The `_clashes_dict` of class `clashes`, keyed by a sorted pair of i_seqs. -/
abbrev ClashDict := List ((Nat × Nat) × ClashRecord)

/-- The `_hbonds_dict` of class `hbonds`, keyed by the `(x, h, a)` i_seq triple. -/
abbrev HbondDict := List ((Nat × Nat × Nat) × HbondRecord)

/-- The transient `_mult_clash_dict`: atom index to the list of its clash partners. -/
abbrev MultDict := List (Nat × List Nat)

/-- The read-only model/geometry environment the pipeline consumes: cached per-atom
flag arrays, element symbols, parent residue-group identity strings
(`atom.parent().parent().id_str()`), cartesian sites, the direct-bond connectivity
table `fsc0`, whether the model has a crystal symmetry (unit cell), and the abstract
symmetry coordinate transform applied to the second atom's residue group. -/
structure Env where
  hd_sel : Nat → Bool
  water_sel : Nat → Bool
  element : Nat → String
  residId : Nat → String
  xyz : Nat → Vec3
  fsc0 : Nat → List Nat
  hasUnitCell : Bool
  symApply : String → Vec3 → Vec3

/-- The mutable state threaded through the `for item in nonbonded_list` loop:
the clash registry under construction, `_hbonds_dict` and `_mult_clash_dict`. -/
structure PState where
  clashes : ClashDict
  hbonds : HbondDict
  mult : MultDict

/-- The initial state: all three dictionaries are created empty. -/
def initState : PState := ⟨[], [], []⟩

/-- The expression `[self.hd_sel[i_seq], self.hd_sel[j_seq]].count(True)`. -/
def hdCount (env : Env) (item : Item) : Nat :=
  (if env.hd_sel item.i_seq then 1 else 0) + (if env.hd_sel item.j_seq then 1 else 0)

/-- Embedding of `manager._residue_groups_rt_mx_ij` reduced to what the caller consumes:
the effective cartesian positions of the two atoms.  When a symmetry operator string is
present and the model has a unit cell, the second atom's coordinates are replaced by the
transformed ones (`Env.symApply`); `rt_mx(str(None))` on a missing operator would raise,
modelled as an error. -/
def residue_xyz_ij (env : Env) (i j : Nat) (symop_str symop : Option String) :
    Except PyErr (Vec3 × Vec3) :=
  if symop_str.isSome ∧ env.hasUnitCell then
    match symop with
    | some s => .ok (env.xyz i, env.symApply s (env.xyz j))
    | none => .error .valueErr
  else .ok (env.xyz i, env.xyz j)

/-- The angle between two vectors (`scitbx.matrix.col.angle`, radians):
`acos(self.dot(other) / (abs(self) * abs(other)))`.  The undefined case (a zero-length
argument) is handled by the caller, see `hbondXLoop`. -/
def vangle (a b : Vec3) : ℝ := Real.arccos (a.dot b / (a.length * b.length))

/-- Radians to degrees, `math.degrees`. -/
def degrees (r : ℝ) : ℝ := r * 180 / Real.pi

/-- The `for iseq_x in iseq_x_list` search of `_is_hbond`: walk the covalent neighbours
of the hydrogen; for each candidate heavy atom X check the assertion
`approx_equal(h_a_distance, model_distance, eps=0.1)` (an `AssertionError` aborts the
run), then the three geometric thresholds; on the first success store one record keyed
`(x, h, a)` and stop (`break`).  Python's `and` short-circuits, so the angle term
`math.degrees(x_h_a_angle)` is only evaluated when both distance windows hold; at that
point `x_h_a_angle` is `None` exactly when one of the two vectors has zero length
(`cos_angle` undefined), and `math.degrees(None)` raises a `TypeError`. -/
def hbondXLoop (env : Env) (item : Item) (h_idx : Nat) (h_pos : Vec3) (a_idx : Nat)
    (a_pos : Vec3) (hb : HbondDict) : List Nat → Except PyErr (Bool × HbondDict)
  | [] => .ok (false, hb)
  | x :: rest =>
    let xyz_x := env.xyz x
    let h_a_distance := (h_pos.sub a_pos).length
    -- something went wrong if they are not equal
    if ¬ |h_a_distance - item.model_distance| ≤ 0.1 then .error .assertErr
    else
      let x_a_distance := (xyz_x.sub a_pos).length
      if (1.2 ≤ h_a_distance ∧ h_a_distance ≤ 2.2) ∧
         (2.2 ≤ x_a_distance ∧ x_a_distance ≤ 3.2) then
        if (h_pos.sub a_pos).length = 0 ∨ (h_pos.sub xyz_x).length = 0 then .error .typeErr
        else
          let x_h_a_angle := vangle (h_pos.sub a_pos) (h_pos.sub xyz_x)
          if 110 ≤ degrees x_h_a_angle then
            .ok (true, odInsert hb (x, h_idx, a_idx)
              ⟨h_a_distance, x_a_distance, degrees x_h_a_angle,
               item.symop_str, item.symop, item.vdw_sum⟩)
          else hbondXLoop env item h_idx h_pos a_idx a_pos hb rest
      else hbondXLoop env item h_idx h_pos a_idx a_pos hb rest

/-- Embedding of `manager._is_hbond`: water and same-residue pairs are rejected, the
donor hydrogen and candidate acceptor are assigned (`raise Sorry(...)` in the impossible
third branch refers to an unimported name, so it is a `NameError`), the acceptor element
is filtered, and the covalent neighbours of the hydrogen are searched by `hbondXLoop`. -/
def is_hbond (env : Env) (item : Item) (hb : HbondDict) : Except PyErr (Bool × HbondDict) :=
  let i := item.i_seq
  let j := item.j_seq
  -- TODO: Ignore water for now
  if env.water_sel i || env.water_sel j then .ok (false, hb)
  -- Ignore atoms within the same residue
  else if env.residId i = env.residId j then .ok (false, hb)
  else
    match residue_xyz_ij env i j item.symop_str item.symop with
    | .error e => .error e
    | .ok (p1, p2) =>
      -- Assign donor H and acceptor A atoms
      let assign : Except PyErr ((Nat × Vec3) × (Nat × Vec3)) :=
        if env.hd_sel i then .ok ((i, p1), (j, p2))
        else if env.hd_sel j then .ok ((j, p2), (i, p1))
        else .error .nameErr
      match assign with
      | .error e => .error e
      | .ok ((h_idx, h_pos), (a_idx, a_pos)) =>
        -- Filter acceptor atom element
        if strip_upper (env.element a_idx) ∈ (["O", "N", "S", "F", "CL"] : List String) then
          hbondXLoop env item h_idx h_pos a_idx a_pos hb (env.fsc0 h_idx)
        else .ok (false, hb)

/-- Embedding of `manager._is_clash`: a nonbonded proxy already below the delta
threshold is a clash iff it is not a 1-5 hydrogen / heavy-atom interaction; on success
both directions are appended to `_mult_clash_dict` (creating empty lists first).  The
`model_distance` argument of the source is unused there and omitted here. -/
def is_clash (env : Env) (i_seq j_seq : Nat) (mult : MultDict) : Bool × MultDict :=
  if check_if_1_5_interaction i_seq j_seq env.hd_sel env.fsc0 then (false, mult)
  else
    let m0 := if odContains mult i_seq then mult else odInsert mult i_seq []
    let m1 := if odContains m0 j_seq then m0 else odInsert m0 j_seq []
    let m2 := odAppendAt m1 i_seq j_seq
    let m3 := odAppendAt m2 j_seq i_seq
    (true, m3)

/-- The hydrogen-bond half of one iteration of the `for item in nonbonded_list` loop:
`if find_hbonds: if (model_distance < 3 and [...].count(True) == 1): _is_hbond(...)`. -/
def hbondStep (env : Env) (find_hbonds : Bool) (st : PState) (item : Item) :
    Except PyErr PState :=
  if find_hbonds then
    if item.model_distance < 3 ∧ hdCount env item = 1 then
      match is_hbond env item st.hbonds with
      | .error e => .error e
      | .ok r => .ok { st with hbonds := r.2 }
    else .ok st
  else .ok st

/-- The clash half of one iteration of the loop: when `delta < -0.40` run `_is_clash`
and on success store the record under the sorted pair key (`clashes.add_clash`). -/
def clashStep (env : Env) (find_clashes : Bool) (st1 : PState) (item : Item) : PState :=
  if find_clashes then
    let delta := item.model_distance - item.vdw_sum
    if delta < -0.40 then
      let r := is_clash env item.i_seq item.j_seq st1.mult
      if r.1 then
        { st1 with
          mult := r.2
          clashes := odInsert st1.clashes (sortedTuple item.i_seq item.j_seq)
            ⟨item.model_distance, item.vdw_sum, |delta|, item.symop_str, item.symop⟩ }
      else { st1 with mult := r.2 }
    else st1
  else st1

/-- One iteration of the `for item in nonbonded_list` loop of
`manager._process_nonbonded_proxies`: the hydrogen-bond branch, then the clash branch
(which raises nothing). -/
def processItem (env : Env) (find_clashes find_hbonds : Bool) (st : PState) (item : Item) :
    Except PyErr PState :=
  match hbondStep env find_hbonds st item with
  | .error e => .error e
  | .ok st1 => .ok (clashStep env find_clashes st1 item)

/-- The `for item in nonbonded_list` loop itself. -/
def runItems (env : Env) (find_clashes find_hbonds : Bool) (st : PState) :
    List Item → Except PyErr PState
  | [] => .ok st
  | item :: rest =>
    match processItem env find_clashes find_hbonds st item with
    | .error e => .error e
    | .ok st1 => runItems env find_clashes find_hbonds st1 rest

/-- The body of the innermost double loop of `manager._process_clashes` for one triple
(center `c`, partners `m1`, `m2`): `cos_angle` starts at 0; only when the partners are
covalently bonded is the collinearity evaluated, and the symmetry guard consults only
`tuple1` (`self._clashes.iseq_tuple_is_sym_clash(tuple1)`, a plain dict access that
raises `KeyError` on a missing key).  The returned list holds the pair keys this triple
appends to `clashes_to_be_removed`. -/
def processTriple (env : Env) (cl : ClashDict) (c m1 m2 : Nat) :
    Except PyErr (List (Nat × Nat)) :=
  -- test inline only if the two atoms that overlap with the common atom are connected
  if m1 ∈ env.fsc0 m2 then
    let atom_1_xyz := env.xyz m1
    let atom_2_xyz := env.xyz m2
    let atom_i_xyz := env.xyz c
    let tuple1 := sortedTuple c m1
    let tuple2 := sortedTuple c m2
    match odLookup cl tuple1 with
    | none => .error .keyErr
    | some r1 =>
      -- Don't check for inline if symmetry overlap (needs correct xyz!)
      let cos_angle : ℝ := if r1.symop.isSome then 0
        else cos_vec atom_1_xyz atom_2_xyz atom_i_xyz
      -- check if atoms are inline
      if |cos_angle| > 0.707 ∧ ¬ atom_1_xyz = atom_2_xyz then
        if odContains cl tuple1 ∧ odContains cl tuple2 then
          match odLookup cl tuple1, odLookup cl tuple2 with
          | some s1, some s2 =>
            if s1.model_distance < s2.model_distance then .ok [tuple2] else .ok [tuple1]
          | _, _ => .error .keyErr
        else .ok []
      else .ok []
  else .ok []

/-- The inner double loop of `_process_clashes` over the ordered pairs of one partner
list, concatenating the removal requests in evaluation order. -/
def scanPairs (env : Env) (cl : ClashDict) (c : Nat) :
    List (Nat × Nat) → Except PyErr (List (Nat × Nat))
  | [] => .ok []
  | (m1, m2) :: rest =>
    match processTriple env cl c m1 m2 with
    | .error e => .error e
    | .ok r =>
      match scanPairs env cl c rest with
      | .error e => .error e
      | .ok rs => .ok (r ++ rs)

/-- The outer loop of `_process_clashes` over `_mult_clash_dict` (a list with at most
one entry produces no pairs, matching the `n_multiples <= 1: continue` shortcut). -/
def scanCenters (env : Env) (cl : ClashDict) :
    MultDict → Except PyErr (List (Nat × Nat))
  | [] => .ok []
  | (c, lst) :: rest =>
    match scanPairs env cl c (orderedPairs lst) with
    | .error e => .error e
    | .ok r =>
      match scanCenters env cl rest with
      | .error e => .error e
      | .ok rs => .ok (r ++ rs)

/-- The deferred removal loop: `for clash_tuple in clashes_to_be_removed:` remove it if
it is still present (`iseq_tuple_is_clashing` then `remove_clash`). -/
def applyRemovals (removals : List (Nat × Nat)) (d : ClashDict) : ClashDict :=
  removals.foldl (fun acc t => if odContains acc t then odErase acc t else acc) d

/-- Embedding of `manager._process_clashes`: scan all triples against the frozen
registry, then apply the collected removals. -/
def process_clashes (env : Env) (cl : ClashDict) (mult : MultDict) :
    Except PyErr ClashDict :=
  match scanCenters env cl mult with
  | .error e => .error e
  | .ok removals => .ok (applyRemovals removals cl)

/-- Stable insertion of one element into a list sorted ascending by the key `f`
(an earlier element precedes later elements with an equal key, as Python's stable
`sorted`). -/
def insertByKey {α : Type} (f : α → ℝ) (a : α) : List α → List α
  | [] => [a]
  | b :: t => if f b < f a then b :: insertByKey f a t else a :: b :: t

/-- Stable ascending sort by the key `f` (Python `sorted(d.items(), key=...)`). -/
def sortByKey {α : Type} (f : α → ℝ) (l : List α) : List α := l.foldr (insertByKey f) []

/-- Embedding of `clashes.sort_clashes(by_value)`: an unknown sort key raises (the
source names `Sorry`, which this module never imports, so a `NameError` is what
actually escapes); the numeric keys sort stably on the chosen record field.  Sorting by
`symmetry` compares `rt_mx`/`None` key objects, which Python 3 cannot order; the
pipeline never requests it and it is modelled as the `TypeError` it would raise on any
comparison. -/
def sort_clashes (d : ClashDict) (by_value : String) : Except PyErr ClashDict :=
  if by_value ∉ (["vdw_distance", "model_distance", "overlap", "symmetry"] : List String) then
    .error .nameErr
  else if by_value = "model_distance" then .ok (sortByKey (fun kv => kv.2.model_distance) d)
  else if by_value = "vdw_distance" then .ok (sortByKey (fun kv => kv.2.vdw_sum) d)
  else if by_value = "overlap" then .ok (sortByKey (fun kv => kv.2.overlap) d)
  else .error .typeErr

/-- The pipeline's result: the final clash registry (`clashes._clashes_dict`) and the
hydrogen-bond registry (`hbonds._hbonds_dict`). -/
structure PipelineResult where
  clashes : ClashDict
  hbonds : HbondDict

/-- Embedding of `manager._process_nonbonded_proxies`.  Its input is the value of
`nonbonded_proxies.get_sorted(...)`: `none` models the engine reporting zero candidate
pairs (`proxies_info_nonbonded is None`).  On that branch the source executes
`self._clashes = clashes(clashes_dict = dict())`, but `clashes.__init__` requires the
positional argument `model`, so the call raises `TypeError` instead of building the
empty registries.  Otherwise the candidate loop, the multi-clash resolution pass and the
final `sort_clashes(by_value='overlap')` run in order. -/
def process_nonbonded_proxies (env : Env) (proxies_info_nonbonded : Option (List Item))
    (find_clashes find_hbonds : Bool) : Except PyErr PipelineResult :=
  match proxies_info_nonbonded with
  | none => .error .typeErr
  | some nonbonded_list =>
    match runItems env find_clashes find_hbonds initState nonbonded_list with
    | .error e => .error e
    | .ok st =>
      match process_clashes env st.clashes st.mult with
      | .error e => .error e
      | .ok cl =>
        match sort_clashes cl "overlap" with
        | .error e => .error e
        | .ok sortedCl => .ok ⟨sortedCl, st.hbonds⟩

/-- Accessor `manager.get_clashes()` (first call: runs the pipeline with
`find_clashes=True` and the defaulted `find_hbonds=True`). -/
def get_clashes (env : Env) (pi_nb : Option (List Item)) : Except PyErr ClashDict :=
  match process_nonbonded_proxies env pi_nb true true with
  | .error e => .error e
  | .ok res => .ok res.clashes

/-- Accessor `manager.get_hbonds()` (first call: runs the pipeline). -/
def get_hbonds (env : Env) (pi_nb : Option (List Item)) : Except PyErr HbondDict :=
  match process_nonbonded_proxies env pi_nb true true with
  | .error e => .error e
  | .ok res => .ok res.hbonds

/-- Embedding of `manager.has_clashes()`: `clashes.get_n_clashes() > 0`. -/
def has_clashes (env : Env) (pi_nb : Option (List Item)) : Except PyErr Bool :=
  match get_clashes env pi_nb with
  | .error e => .error e
  | .ok c => .ok (decide (0 < c.length))

/-- Embedding of `manager.has_hbonds()`: the source calls `hbonds.get_n_bonds()`, but
class `hbonds` only defines `get_n_hbonds`, so after the pipeline has produced the
registry the attribute lookup raises `AttributeError`. -/
def has_hbonds (env : Env) (pi_nb : Option (List Item)) : Except PyErr Bool :=
  match get_hbonds env pi_nb with
  | .error e => .error e
  | .ok _ => .error .attrErr

/-- Number of records of `_hbonds_dict` whose hydrogen slot (the middle component of
the `(x, h, a)` key) is the given atom. -/
def hbondCountForHydrogen (d : HbondDict) (h : Nat) : Nat :=
  (d.filter fun kv => kv.1.2.1 == h).length

end

/-! Concrete test fixtures.  `fsc3`/`hd3` build the synthetic linear covalent chain
H(0)-A1(1)-A2(2)-A3(3)-A4(4) with an extra heavy atom X(5) bonded only to A4, used by
the 1-5 interaction claims. -/

/-- Connectivity of the synthetic chain 0-1-2-3-4-5 (atom 5 is the extra atom X). -/
def fsc3 : Nat → List Nat
  | 0 => [1]
  | 1 => [0, 2]
  | 2 => [1, 3]
  | 3 => [2, 4]
  | 4 => [3, 5]
  | 5 => [4]
  | _ => []

/-- Hydrogen selection for the synthetic chain: only atom 0 is a hydrogen. -/
def hd3 : Nat → Bool
  | 0 => true
  | _ => false

/-- Environment with no hydrogens, no water, no bonds and all atoms at the origin;
used to exercise the pipeline on candidate pairs that trigger no branch. -/
noncomputable def env0 : Env where
  hd_sel := fun _ => false
  water_sel := fun _ => false
  element := fun _ => "C"
  residId := fun _ => ""
  xyz := fun _ => ⟨0, 0, 0⟩
  fsc0 := fun _ => []
  hasUnitCell := false
  symApply := fun _ v => v

/-- A candidate pair that is neither a hydrogen-bond candidate (`model_distance = 3`
is not `< 3`) nor a clash candidate (`delta = 3` is not `< -0.40`). -/
noncomputable def item0 : Item := ⟨0, 1, 3, 0, none, none⟩

/-- A candidate pair of two heavy atoms with `delta = 1 - 1.41 = -0.41`, discovered in
the order `(5, 2)`. -/
noncomputable def item15 : Item := ⟨5, 2, 1, 1.41, none, none⟩

/-- The state after processing `item15` from the empty state: one clash record stored
under the canonical key `(2, 5)` and both directions recorded in `_mult_clash_dict`. -/
noncomputable def stC1 : PState :=
  ⟨[((2, 5), ⟨1, 1.41, |(1 : ℝ) - 1.41|, none, none⟩)], [], [(5, [2]), (2, [5])]⟩

/-- Environment for the multi-clash scenarios: atom 0 is the shared clashing atom `c`
at position (2,0,0), atoms 1 and 2 are the covalently bonded partners `p1` at (1,0,0)
and `p2` at (-1,0,0); the three positions are collinear with `c` outside the segment. -/
noncomputable def env4 : Env where
  hd_sel := fun _ => false
  water_sel := fun _ => false
  element := fun _ => "C"
  residId := fun _ => ""
  xyz := fun n => if n = 0 then ⟨2, 0, 0⟩ else if n = 1 then ⟨1, 0, 0⟩ else ⟨-1, 0, 0⟩
  fsc0 := fun n => if n = 1 then [2] else if n = 2 then [1] else []
  hasUnitCell := false
  symApply := fun _ v => v

/-- A clash record with model distance 1 and no symmetry operator. -/
noncomputable def r41 : ClashRecord := ⟨1, 0, 0, none, none⟩

/-- A symmetry-derived clash record with model distance 2. -/
noncomputable def r42 : ClashRecord := ⟨2, 0, 0, some "-x,-y,z", some "-x,-y,z"⟩

/-- A non-symmetry clash record with model distance 2. -/
noncomputable def r52 : ClashRecord := ⟨2, 0, 0, none, none⟩

/-- Environment for the hydrogen-bond scenarios: atom 1 is the only hydrogen H at the
origin, atom 0 is its covalently bonded heavy donor X at (-1,0,0), atoms 2 and 3 are
oxygen acceptors in different residues at (2,0,0) and (3/2,0,0), all on one line so the
X-H...A angle is exactly 180 degrees. -/
noncomputable def env7 : Env where
  hd_sel := fun n => n == 1
  water_sel := fun _ => false
  element := fun n => if n == 2 || n == 3 then "O" else "C"
  residId := fun n => if n == 2 then "r1" else if n == 3 then "r2" else "r0"
  xyz := fun n => if n = 0 then ⟨-1, 0, 0⟩ else if n = 1 then ⟨0, 0, 0⟩
    else if n = 2 then ⟨2, 0, 0⟩ else ⟨3 / 2, 0, 0⟩
  fsc0 := fun n => if n = 1 then [0] else []
  hasUnitCell := false
  symApply := fun _ v => v

/-- Candidate pair (H, A1) with model distance 2. -/
noncomputable def it71 : Item := ⟨1, 2, 2, 0, none, none⟩

/-- Candidate pair (H, A2) with model distance 3/2, same hydrogen as `it71`. -/
noncomputable def it72 : Item := ⟨1, 3, 3 / 2, 0, none, none⟩

/-- The stored record for the pair (H, A1): H...A = 2, X...A = 3, angle 180. -/
noncomputable def rec71 : HbondRecord := ⟨2, 3, 180, none, none, 0⟩

/-- The stored record for the pair (H, A2): H...A = 3/2, X...A = 5/2, angle 180. -/
noncomputable def rec72 : HbondRecord := ⟨3 / 2, 5 / 2, 180, none, none, 0⟩

/-- The pipeline result on `[it71, it72]`: two hydrogen-bond records for hydrogen 1. -/
noncomputable def res7 : PipelineResult :=
  ⟨[], [((0, 1, 2), rec71), ((0, 1, 3), rec72)]⟩

/-- The three geometric thresholds a stored hydrogen-bond record must satisfy
(H...A in [1.2, 2.2], X...A in [2.2, 3.2], X-H...A angle at least 110 degrees). -/
def HbondOK (r : HbondRecord) : Prop :=
  1.2 ≤ r.h_a_distance ∧ r.h_a_distance ≤ 2.2 ∧
  2.2 ≤ r.x_a_distance ∧ r.x_a_distance ≤ 3.2 ∧
  110 ≤ r.x_h_a_angle_deg

/-- The acceptance condition of one candidate heavy atom X in the `_is_hbond` search:
both distance windows, a well-defined angle, and the angle threshold. -/
def acceptsX (env : Env) (h_pos a_pos : Vec3) (x : Nat) : Prop :=
  ((1.2 ≤ (h_pos.sub a_pos).length ∧ (h_pos.sub a_pos).length ≤ 2.2) ∧
    (2.2 ≤ ((env.xyz x).sub a_pos).length ∧ ((env.xyz x).sub a_pos).length ≤ 3.2)) ∧
  ¬((h_pos.sub a_pos).length = 0 ∨ (h_pos.sub (env.xyz x)).length = 0) ∧
  110 ≤ degrees (vangle (h_pos.sub a_pos) (h_pos.sub (env.xyz x)))

/-- The record stored by `_is_hbond` for an accepted candidate X. -/
noncomputable def hbondRecordFor (env : Env) (item : Item) (h_pos a_pos : Vec3)
    (x : Nat) : HbondRecord :=
  ⟨(h_pos.sub a_pos).length, ((env.xyz x).sub a_pos).length,
   degrees (vangle (h_pos.sub a_pos) (h_pos.sub (env.xyz x))),
   item.symop_str, item.symop, item.vdw_sum⟩

lemma runItems_env0 : runItems env0 true true initState [item0] = .ok initState := by
  simp only [runItems, processItem, hbondStep, clashStep, item0, env0, hdCount, initState]
  norm_num

lemma pipeline_env0 :
    process_nonbonded_proxies env0 (some [item0]) true true = .ok ⟨[], []⟩ := by
  simp only [process_nonbonded_proxies, runItems_env0]
  simp [process_clashes, scanCenters, applyRemovals, sort_clashes, sortByKey, initState]

/-- C3 counterexample: on the synthetic linear chain H(0)-A1(1)-A2(2)-A3(3)-A4(4) with
X(5) bonded only to A4, the claim asserts `check_if_1_5_interaction(H, X)` returns
true, but the source labels breadth-first levels 2..5 starting from the hydrogen, so
label 5 means four covalent bonds away; X is five bonds away and the call returns
false. -/
theorem c3_counterexample : check_if_1_5_interaction 0 5 hd3 fsc3 = false := by decide

/-- C3 amended: on the synthetic chain, the 1-5 test accepts exactly the heavy atom
four covalent bonds from the hydrogen: `check_if_1_5_interaction(H, A4)` is true while
both `check_if_1_5_interaction(H, A3)` (three bonds) and `check_if_1_5_interaction(H, X)`
(five bonds) are false. -/
theorem c3_one_five_at_four_bonds :
    check_if_1_5_interaction 0 4 hd3 fsc3 = true ∧
    check_if_1_5_interaction 0 3 hd3 fsc3 = false ∧
    check_if_1_5_interaction 0 5 hd3 fsc3 = false := by decide

/-- C5: when the external engine reports zero candidate pairs
(`get_sorted` returns `None`), the pipeline does not build empty registries: the
source's early-exit branch calls `clashes(clashes_dict=dict())` without the required
`model` argument, so the run raises `TypeError` for every environment. -/
theorem c5_empty_input_raises :
    ∀ (env : Env) (find_clashes find_hbonds : Bool),
      process_nonbonded_proxies env none find_clashes find_hbonds =
        Except.error PyErr.typeErr := by
  intro env fc fh
  rfl

lemma sortedTuple_ne (c p1 p2 : Nat) (h : p1 ≠ p2) :
    sortedTuple c p1 ≠ sortedTuple c p2 := by
  intro heq
  unfold sortedTuple at heq
  split_ifs at heq <;> rw [Prod.mk.injEq] at heq <;> omega

lemma processTriple_two (env : Env) (c p1 p2 : Nat) (r1 r2 : ClashRecord)
    (hp : p1 ≠ p2)
    (hb : p1 ∈ env.fsc0 p2)
    (hsym : r1.symop = none)
    (hcos : |cos_vec (env.xyz p1) (env.xyz p2) (env.xyz c)| > 0.707)
    (hxyz : env.xyz p1 ≠ env.xyz p2) :
    processTriple env [(sortedTuple c p1, r1), (sortedTuple c p2, r2)] c p1 p2 =
      .ok (if r1.model_distance < r2.model_distance then [sortedTuple c p2]
           else [sortedTuple c p1]) := by
  have ht12 : sortedTuple c p1 ≠ sortedTuple c p2 := sortedTuple_ne c p1 p2 hp
  have hl1 : odLookup [(sortedTuple c p1, r1), (sortedTuple c p2, r2)] (sortedTuple c p1)
      = some r1 := by simp [odLookup]
  have hl2 : odLookup [(sortedTuple c p1, r1), (sortedTuple c p2, r2)] (sortedTuple c p2)
      = some r2 := by simp [odLookup, ht12]
  have hnone : (if r1.symop.isSome = true then (0 : ℝ)
      else cos_vec (env.xyz p1) (env.xyz p2) (env.xyz c)) =
      cos_vec (env.xyz p1) (env.xyz p2) (env.xyz c) := by
    rw [hsym]
    simp
  simp only [processTriple, if_pos hb, hl1]
  rw [hnone]
  rw [if_pos ⟨hcos, hxyz⟩]
  rw [if_pos ⟨by simp [odContains, hl1], by simp [odContains, hl2]⟩]
  rw [hl2]
  by_cases hmd : r1.model_distance < r2.model_distance
  · simp [hmd]
  · simp [hmd]

lemma process_clashes_two (env : Env) (c p1 p2 : Nat) (r1 r2 : ClashRecord)
    (hp : p1 ≠ p2)
    (hb : p1 ∈ env.fsc0 p2)
    (hsym : r1.symop = none)
    (hcos : |cos_vec (env.xyz p1) (env.xyz p2) (env.xyz c)| > 0.707)
    (hxyz : env.xyz p1 ≠ env.xyz p2) :
    process_clashes env [(sortedTuple c p1, r1), (sortedTuple c p2, r2)]
        [(c, [p1, p2]), (p1, [c]), (p2, [c])] =
      .ok (if r1.model_distance < r2.model_distance then [(sortedTuple c p1, r1)]
           else [(sortedTuple c p2, r2)]) := by
  have ht12 : sortedTuple c p1 ≠ sortedTuple c p2 := sortedTuple_ne c p1 p2 hp
  have htri := processTriple_two env c p1 p2 r1 r2 hp hb hsym hcos hxyz
  have hscan : scanCenters env [(sortedTuple c p1, r1), (sortedTuple c p2, r2)]
      [(c, [p1, p2]), (p1, [c]), (p2, [c])] =
      .ok (if r1.model_distance < r2.model_distance then [sortedTuple c p2]
           else [sortedTuple c p1]) := by
    simp only [scanCenters, scanPairs, orderedPairs, List.map_cons, List.map_nil,
      List.nil_append, List.cons_append, htri]
    simp
  simp only [process_clashes, hscan]
  by_cases hmd : r1.model_distance < r2.model_distance
  · simp only [if_pos hmd]
    simp [applyRemovals, odContains, odLookup, odErase, ht12]
  · simp only [if_neg hmd]
    simp [applyRemovals, odContains, odLookup, odErase, ht12]

lemma vec3_length_two : Vec3.length ⟨2, 0, 0⟩ = 2 := by
  simp only [Vec3.length]
  rw [show (2 : ℝ) ^ 2 + 0 ^ 2 + 0 ^ 2 = 2 ^ 2 by norm_num]
  exact Real.sqrt_sq (by norm_num)

lemma cos_vec_axis : cos_vec ⟨1, 0, 0⟩ ⟨-1, 0, 0⟩ ⟨2, 0, 0⟩ = 1 := by
  have hv1 : Vec3.sub ⟨2, 0, 0⟩
      ((Vec3.smul (1 / 2) ⟨1, 0, 0⟩).add (Vec3.smul (1 / 2) ⟨-1, 0, 0⟩)) = ⟨2, 0, 0⟩ := by
    norm_num [Vec3.sub, Vec3.add, Vec3.smul]
  have hv2 : Vec3.sub ⟨1, 0, 0⟩ ⟨-1, 0, 0⟩ = (⟨2, 0, 0⟩ : Vec3) := by
    norm_num [Vec3.sub]
  simp only [cos_vec, hv1, hv2, vec3_length_two]
  rw [if_neg (by norm_num)]
  simp only [Vec3.normalize, vec3_length_two, Vec3.smul, Vec3.dot]
  norm_num

lemma env4_cos : |cos_vec (env4.xyz 1) (env4.xyz 2) (env4.xyz 0)| > 0.707 := by
  have h1 : env4.xyz 1 = ⟨1, 0, 0⟩ := by norm_num [env4]
  have h2 : env4.xyz 2 = ⟨-1, 0, 0⟩ := by norm_num [env4]
  have h0 : env4.xyz 0 = ⟨2, 0, 0⟩ := by norm_num [env4]
  rw [h1, h2, h0, cos_vec_axis]
  norm_num

lemma env4_xyz_ne : env4.xyz 1 ≠ env4.xyz 2 := by
  have h1 : env4.xyz 1 = ⟨1, 0, 0⟩ := by norm_num [env4]
  have h2 : env4.xyz 2 = ⟨-1, 0, 0⟩ := by norm_num [env4]
  rw [h1, h2]
  intro h
  rw [Vec3.mk.injEq] at h
  norm_num at h

lemma env4_bond : 1 ∈ env4.fsc0 2 := by norm_num [env4]

/-- C2: in the multi-clash resolution pass, when a shared atom `c` clashes with both
members of a bonded pair `p1`-`p2` (both records live, the first non-symmetric), the
partner positions nearly collinear (`|cos_vec| > 0.707`) and not identical, exactly one
of the two records survives: the one with the smaller model distance (on a tie the
second scanned key is removed, which also keeps a record of minimal distance). -/
theorem c2_multiclash_keeps_smaller :
    ∀ (env : Env) (c p1 p2 : Nat) (r1 r2 : ClashRecord),
      p1 ≠ p2 →
      p1 ∈ env.fsc0 p2 →
      r1.symop = none →
      |cos_vec (env.xyz p1) (env.xyz p2) (env.xyz c)| > 0.707 →
      env.xyz p1 ≠ env.xyz p2 →
      process_clashes env [(sortedTuple c p1, r1), (sortedTuple c p2, r2)]
          [(c, [p1, p2]), (p1, [c]), (p2, [c])] =
        Except.ok (if r1.model_distance < r2.model_distance
          then [(sortedTuple c p1, r1)] else [(sortedTuple c p2, r2)]) :=
  fun env c p1 p2 r1 r2 hp hb hsym hcos hxyz =>
    process_clashes_two env c p1 p2 r1 r2 hp hb hsym hcos hxyz

/-- C2 witness: the concrete collinear scenario `c = 0`, `p1 = 1`, `p2 = 2` with model
distances 1 and 2 keeps exactly the shorter clash `(0, 1)`. -/
theorem c2_witness :
    ((1 : Nat) ≠ 2 ∧ 1 ∈ env4.fsc0 2 ∧ r41.symop = none ∧
      |cos_vec (env4.xyz 1) (env4.xyz 2) (env4.xyz 0)| > 0.707 ∧
      env4.xyz 1 ≠ env4.xyz 2) ∧
    process_clashes env4 [((0, 1), r41), ((0, 2), r52)] [(0, [1, 2]), (1, [0]), (2, [0])] =
      Except.ok [((0, 1), r41)] := by
  refine ⟨⟨by norm_num, env4_bond, rfl, env4_cos, env4_xyz_ne⟩, ?_⟩
  have h := c2_multiclash_keeps_smaller env4 0 1 2 r41 r52 (by norm_num) env4_bond rfl
    env4_cos env4_xyz_ne
  rw [show sortedTuple 0 1 = (0, 1) from rfl, show sortedTuple 0 2 = (0, 2) from rfl] at h
  rw [h]
  norm_num [r41, r52]

/-- C4 counterexample: the claim says that when either derived pair-key is a
symmetry-derived clash, neither record is removed by the triple.  In this concrete
collinear scenario the second record `(0, 2)` carries a symmetry operator, yet the pass
still removes it: the source consults only `tuple1` before computing the collinearity
score. -/
theorem c4_counterexample :
    process_clashes env4 [((0, 1), r41), ((0, 2), r42)] [(0, [1, 2]), (1, [0]), (2, [0])] =
      Except.ok [((0, 1), r41)] ∧ r42.symop.isSome = true := by
  constructor
  · have h := process_clashes_two env4 0 1 2 r41 r42 (by norm_num) env4_bond rfl
      env4_cos env4_xyz_ne
    rw [show sortedTuple 0 1 = (0, 1) from rfl, show sortedTuple 0 2 = (0, 2) from rfl] at h
    rw [h]
    norm_num [r41, r42]
  · rfl

/-- C4 amended: the symmetry guard of `_process_clashes` consults only the first
derived pair-key `(c, m1)`: when that record is symmetry-derived, `cos_angle` stays 0
and the triple flags nothing for removal, regardless of the second key; a
symmetry-derived second key alone does not suppress the test (see the
counterexample). -/
theorem c4_sym_first_key_skips :
    ∀ (env : Env) (cl : ClashDict) (c m1 m2 : Nat) (r1 : ClashRecord),
      odLookup cl (sortedTuple c m1) = some r1 →
      r1.symop.isSome = true →
      processTriple env cl c m1 m2 = Except.ok [] := by
  intro env cl c m1 m2 r1 hl hs
  by_cases hb : m1 ∈ env.fsc0 m2
  · simp only [processTriple, if_pos hb, hl]
    rw [if_pos hs]
    rw [if_neg (by norm_num)]
  · simp only [processTriple, if_neg hb]

/-- C4 witness: a registry whose first derived key holds a symmetry-derived record
makes the triple a no-op. -/
theorem c4_witness :
    (odLookup [((0, 1), r42)] (sortedTuple 0 1) = some r42 ∧ r42.symop.isSome = true) ∧
    processTriple env4 [((0, 1), r42)] 0 1 2 = Except.ok [] := by
  have hl : odLookup [((0, 1), r42)] (sortedTuple 0 1) = some r42 := by
    simp [odLookup, sortedTuple]
  exact ⟨⟨hl, rfl⟩, c4_sym_first_key_skips env4 [((0, 1), r42)] 0 1 2 r42 hl rfl⟩

lemma Vec3.length_smul_neg_one (a : Vec3) : (Vec3.smul (-1) a).length = a.length := by
  simp only [Vec3.smul, Vec3.length]
  congr 1
  ring

lemma Vec3.sub_swap (u v : Vec3) : v.sub u = Vec3.smul (-1) (u.sub v) := by
  simp only [Vec3.sub, Vec3.smul, Vec3.mk.injEq]
  refine ⟨by ring, by ring, by ring⟩

lemma Vec3.normalize_smul_neg_one (a : Vec3) :
    (Vec3.smul (-1) a).normalize = Vec3.smul (-1) a.normalize := by
  unfold Vec3.normalize
  rw [Vec3.length_smul_neg_one]
  simp only [Vec3.smul, Vec3.mk.injEq]
  refine ⟨by ring, by ring, by ring⟩

lemma Vec3.dot_smul_neg_one_right (a b : Vec3) :
    a.dot (Vec3.smul (-1) b) = -(a.dot b) := by
  simp only [Vec3.dot, Vec3.smul]
  ring

lemma odLookup_insert {α β : Type} [DecidableEq α] (d : List (α × β)) (k a : α) (v : β) :
    odLookup (odInsert d k v) a = if k = a then some v else odLookup d a := by
  induction d with
  | nil => simp [odInsert, odLookup]
  | cons p tl ih =>
    obtain ⟨k0, v0⟩ := p
    simp only [odInsert]
    by_cases h : k0 = k
    · subst h
      by_cases h2 : k0 = a <;> simp [odLookup, h2]
    · rw [if_neg h]
      by_cases h2 : k0 = a
      · subst h2
        have hka : ¬ k = k0 := fun hk => h hk.symm
        simp [odLookup, hka]
      · simp [odLookup, h2, ih]

lemma odContains_insert {α β : Type} [DecidableEq α] (d : List (α × β)) (k a : α) (v : β) :
    odContains (odInsert d k v) a = true ↔ (a = k ∨ odContains d a = true) := by
  simp only [odContains, odLookup_insert]
  by_cases h : k = a
  · simp [h]
  · have : ¬ a = k := fun hk => h hk.symm
    simp [h, this]

lemma hbondStep_ok (env : Env) (fh : Bool) (st : PState) (item : Item) (st1 : PState)
    (h : hbondStep env fh st item = .ok st1) :
    st1.clashes = st.clashes ∧ st1.mult = st.mult := by
  unfold hbondStep at h
  cases fh with
  | false =>
    simp only [Bool.false_eq_true, if_false, Except.ok.injEq] at h
    subst h
    exact ⟨rfl, rfl⟩
  | true =>
    simp only [if_true] at h
    by_cases h2 : item.model_distance < 3 ∧ hdCount env item = 1
    · rw [if_pos h2] at h
      cases hhb : is_hbond env item st.hbonds <;> rw [hhb] at h
      · exact absurd h (by simp)
      · rw [Except.ok.injEq] at h
        subst h
        exact ⟨rfl, rfl⟩
    · rw [if_neg h2, Except.ok.injEq] at h
      subst h
      exact ⟨rfl, rfl⟩

lemma is_clash_fst (env : Env) (i j : Nat) (m : MultDict) :
    (is_clash env i j m).1 = !(check_if_1_5_interaction i j env.hd_sel env.fsc0) := by
  cases hc : check_if_1_5_interaction i j env.hd_sel env.fsc0 <;> simp [is_clash, hc]

lemma clashStep_clashes (env : Env) (st1 : PState) (item : Item) :
    (clashStep env true st1 item).clashes =
      if item.model_distance - item.vdw_sum < -0.40 ∧
         check_if_1_5_interaction item.i_seq item.j_seq env.hd_sel env.fsc0 = false then
        odInsert st1.clashes (sortedTuple item.i_seq item.j_seq)
          ⟨item.model_distance, item.vdw_sum, |item.model_distance - item.vdw_sum|,
           item.symop_str, item.symop⟩
      else st1.clashes := by
  unfold clashStep
  by_cases hd : item.model_distance - item.vdw_sum < -0.40
  · cases hc : check_if_1_5_interaction item.i_seq item.j_seq env.hd_sel env.fsc0
    · simp [hd, hc, is_clash_fst]
    · simp [hd, hc, is_clash_fst]
  · simp [hd]

/-- C1: in the candidate loop, a clash record for a pair key is present after
processing an item exactly when it was already present or the item satisfies the clash
condition: `delta = model_distance - vdw_sum < -0.40` and the pair is not a 1-5
hydrogen / heavy-atom interaction; the key is then the sorted pair.  In particular
`delta = -0.40` creates no record and `delta = -0.41` with no 1-5 relation does. -/
theorem c1_clash_creation_iff :
    ∀ (env : Env) (st : PState) (item : Item) (st2 : PState),
      processItem env true true st item = Except.ok st2 →
      ∀ k : Nat × Nat,
        (odContains st2.clashes k = true ↔
          (odContains st.clashes k = true ∨
           (k = sortedTuple item.i_seq item.j_seq ∧
            item.model_distance - item.vdw_sum < -0.40 ∧
            check_if_1_5_interaction item.i_seq item.j_seq env.hd_sel env.fsc0 = false))) := by
  intro env st item st2 h k
  unfold processItem at h
  cases hhb : hbondStep env true st item <;> rw [hhb] at h
  · exact absurd h (by simp)
  case ok st1 =>
    rw [Except.ok.injEq] at h
    subst h
    obtain ⟨hcl, _⟩ := hbondStep_ok env true st item st1 hhb
    rw [clashStep_clashes, hcl]
    by_cases hcond : item.model_distance - item.vdw_sum < -0.40 ∧
        check_if_1_5_interaction item.i_seq item.j_seq env.hd_sel env.fsc0 = false
    · rw [if_pos hcond, odContains_insert]
      constructor
      · rintro (h1 | h1)
        · exact Or.inr ⟨h1, hcond.1, hcond.2⟩
        · exact Or.inl h1
      · rintro (h1 | ⟨h1, _, _⟩)
        · exact Or.inr h1
        · exact Or.inl h1
    · rw [if_neg hcond]
      constructor
      · exact Or.inl
      · rintro (h1 | ⟨_, h2, h3⟩)
        · exact h1
        · exact absurd ⟨h2, h3⟩ hcond

lemma processItem_item15 : processItem env0 true true initState item15 = .ok stC1 := by
  simp only [processItem, hbondStep, clashStep, is_clash, item15, env0, initState, hdCount,
    check_if_1_5_interaction, odContains, sortedTuple, stC1]
  norm_num
  simp [odInsert, odLookup, odAppendAt]

/-- C1 witness: the boundary pair with `delta = -0.41`, two heavy atoms and no covalent
bonds is processed without error and its record is created under the key `(2, 5)`. -/
theorem c1_witness :
    processItem env0 true true initState item15 = Except.ok stC1 ∧
    (odContains stC1.clashes (2, 5) = true ↔
      (odContains initState.clashes (2, 5) = true ∨
       ((2, 5) = sortedTuple item15.i_seq item15.j_seq ∧
        item15.model_distance - item15.vdw_sum < -0.40 ∧
        check_if_1_5_interaction item15.i_seq item15.j_seq env0.hd_sel env0.fsc0 = false))) :=
  ⟨processItem_item15, c1_clash_creation_iff env0 initState item15 stC1 processItem_item15 (2, 5)⟩

/-- C9: `has_hbonds()` can never return a boolean: the source calls
`hbonds.get_n_bonds()`, an attribute class `hbonds` does not define (it defines
`get_n_hbonds`), so every call raises `AttributeError`; `has_clashes()` on the other
hand does return exactly `count > 0` whenever the pipeline completes. -/
theorem c9_has_hbonds_raises :
    (∀ (env : Env) (pi_nb : Option (List Item)) (b : Bool),
      has_hbonds env pi_nb ≠ Except.ok b) ∧
    (∀ (env : Env) (items : List Item) (res : PipelineResult),
      process_nonbonded_proxies env (some items) true true = Except.ok res →
      has_clashes env (some items) = Except.ok (decide (0 < res.clashes.length))) := by
  constructor
  · intro env pi_nb b h
    unfold has_hbonds at h
    cases hg : get_hbonds env pi_nb <;> simp [hg] at h
  · intro env items res h
    unfold has_clashes get_clashes
    rw [h]

/-- C9 witness: on a pipeline input that completes with no clashes, `has_hbonds`
returns no boolean while `has_clashes` returns `false`. -/
theorem c9_witness :
    (∀ b : Bool, has_hbonds env0 (some [item0]) ≠ Except.ok b) ∧
    has_clashes env0 (some [item0]) = Except.ok false := by
  refine ⟨fun b => c9_has_hbonds_raises.1 env0 (some [item0]) b, ?_⟩
  have h := c9_has_hbonds_raises.2 env0 [item0] ⟨[], []⟩ pipeline_env0
  simpa using h

lemma odContains_iff_mem {α β : Type} [DecidableEq α] (d : List (α × β)) (a : α) :
    odContains d a = true ↔ a ∈ d.map Prod.fst := by
  induction d with
  | nil => simp [odContains, odLookup]
  | cons p tl ih =>
    obtain ⟨k0, v0⟩ := p
    by_cases h : k0 = a
    · subst h
      simp [odContains, odLookup]
    · have h2 : ¬ a = k0 := fun hk => h hk.symm
      simp only [odContains, odLookup, if_neg h, List.map_cons, List.mem_cons]
      constructor
      · intro hc
        exact Or.inr (ih.1 hc)
      · rintro (hk | hm)
        · exact absurd hk h2
        · exact ih.2 hm

lemma mem_keys_insert {α β : Type} [DecidableEq α] (d : List (α × β)) (k a : α) (v : β) :
    a ∈ (odInsert d k v).map Prod.fst ↔ (a = k ∨ a ∈ d.map Prod.fst) := by
  rw [← odContains_iff_mem, odContains_insert, odContains_iff_mem]

lemma mem_insert_elim {α β : Type} [DecidableEq α] {d : List (α × β)} {k : α} {v : β}
    {kv : α × β} (h : kv ∈ odInsert d k v) : kv = (k, v) ∨ kv ∈ d := by
  induction d with
  | nil =>
    simp [odInsert] at h
    exact Or.inl h
  | cons p tl ih =>
    obtain ⟨k0, v0⟩ := p
    by_cases h0 : k0 = k
    · subst h0
      simp only [odInsert, if_pos rfl, if_true, eq_self_iff_true, List.mem_cons] at h
      rcases h with ha | ha
      · exact Or.inl ha
      · exact Or.inr (List.mem_cons_of_mem _ ha)
    · simp only [odInsert, if_neg h0, List.mem_cons] at h
      rcases h with ha | ha
      · exact Or.inr (ha ▸ List.mem_cons_self _ _)
      · rcases ih ha with h2 | h2
        · exact Or.inl h2
        · exact Or.inr (List.mem_cons_of_mem _ h2)

lemma odInsert_keys_nodup {α β : Type} [DecidableEq α] (d : List (α × β)) (k : α) (v : β)
    (h : (d.map Prod.fst).Nodup) : ((odInsert d k v).map Prod.fst).Nodup := by
  induction d with
  | nil => simp [odInsert]
  | cons p tl ih =>
    obtain ⟨k0, v0⟩ := p
    by_cases h0 : k0 = k
    · subst h0
      simp only [odInsert, if_pos rfl, if_true, eq_self_iff_true, List.map_cons] at h ⊢
      exact h
    · simp only [odInsert, if_neg h0, List.map_cons, List.nodup_cons] at h ⊢
      obtain ⟨hk0, htl⟩ := h
      refine ⟨?_, ih htl⟩
      rw [mem_keys_insert]
      rintro (h2 | h2)
      · exact h0 h2
      · exact hk0 h2

lemma odErase_sublist {α β : Type} [DecidableEq α] (d : List (α × β)) (a : α) :
    (odErase d a).Sublist d := by
  induction d with
  | nil => simp [odErase]
  | cons p tl ih =>
    obtain ⟨k0, v0⟩ := p
    by_cases h : k0 = a
    · simp only [odErase, if_pos h]
      exact List.sublist_cons_self (k0, v0) tl
    · simp only [odErase, if_neg h]
      exact List.Sublist.cons₂ (k0, v0) ih

lemma applyRemovals_sublist (removals : List (Nat × Nat)) :
    ∀ d : ClashDict, (applyRemovals removals d).Sublist d := by
  induction removals with
  | nil => intro d; simp [applyRemovals]
  | cons t ts ih =>
    intro d
    have step : (if odContains d t = true then odErase d t else d).Sublist d := by
      by_cases h : odContains d t = true
      · simpa [h] using odErase_sublist d t
      · simp [h]
    have hunf : applyRemovals (t :: ts) d =
        applyRemovals ts (if odContains d t = true then odErase d t else d) := by
      simp [applyRemovals]
    rw [hunf]
    exact (ih _).trans step

lemma insertByKey_perm {α : Type} (f : α → ℝ) (a : α) (l : List α) :
    (insertByKey f a l).Perm (a :: l) := by
  induction l with
  | nil => simp [insertByKey]
  | cons b t ih =>
    by_cases h : f b < f a
    · simp only [insertByKey, if_pos h]
      exact (ih.cons b).trans (List.Perm.swap a b t)
    · simp [insertByKey, h]

lemma sortByKey_perm {α : Type} (f : α → ℝ) (l : List α) : (sortByKey f l).Perm l := by
  induction l with
  | nil => simp [sortByKey]
  | cons a t ih =>
    simp only [sortByKey, List.foldr_cons]
    exact (insertByKey_perm f a _).trans (ih.cons a)

lemma sort_clashes_perm (d d2 : ClashDict) (s : String)
    (h : sort_clashes d s = .ok d2) : d2.Perm d := by
  unfold sort_clashes at h
  split at h
  · exact absurd h (by simp)
  · split at h
    · rw [Except.ok.injEq] at h
      exact h ▸ sortByKey_perm _ d
    · split at h
      · rw [Except.ok.injEq] at h
        exact h ▸ sortByKey_perm _ d
      · split at h
        · rw [Except.ok.injEq] at h
          exact h ▸ sortByKey_perm _ d
        · exact absurd h (by simp)

lemma process_nonbonded_proxies_some (env : Env) (items : List Item) (fc fh : Bool) :
    process_nonbonded_proxies env (some items) fc fh =
      match runItems env fc fh initState items with
      | .error e => .error e
      | .ok st =>
        match process_clashes env st.clashes st.mult with
        | .error e => .error e
        | .ok cl =>
          match sort_clashes cl "overlap" with
          | .error e => .error e
          | .ok sortedCl => .ok ⟨sortedCl, st.hbonds⟩ := rfl

lemma sortedTuple_fst_lt (i j : Nat) (h : i ≠ j) :
    (sortedTuple i j).1 < (sortedTuple i j).2 := by
  unfold sortedTuple
  by_cases h2 : i ≤ j
  · simp only [if_pos h2]
    omega
  · simp only [if_neg h2]
    omega

lemma clashStep_false (env : Env) (st1 : PState) (item : Item) :
    clashStep env false st1 item = st1 := by
  simp [clashStep]

lemma runItems_clashes_inv (env : Env) (fc fh : Bool) :
    ∀ (items : List Item) (st st2 : PState),
      runItems env fc fh st items = .ok st2 →
      (∀ it ∈ items, it.i_seq ≠ it.j_seq) →
      ((st.clashes.map Prod.fst).Nodup ∧ ∀ kv ∈ st.clashes, kv.1.1 < kv.1.2) →
      ((st2.clashes.map Prod.fst).Nodup ∧ ∀ kv ∈ st2.clashes, kv.1.1 < kv.1.2) := by
  intro items
  induction items with
  | nil =>
    intro st st2 h _ hinv
    unfold runItems at h
    rw [Except.ok.injEq] at h
    exact h ▸ hinv
  | cons it rest ih =>
    intro st st2 h hitems hinv
    unfold runItems at h
    cases hpi : processItem env fc fh st it <;> rw [hpi] at h
    · exact absurd h (by simp)
    case ok st1 =>
      apply ih st1 st2 h (fun x hx => hitems x (List.mem_cons_of_mem _ hx))
      unfold processItem at hpi
      cases hhb : hbondStep env fh st it <;> rw [hhb] at hpi
      · exact absurd hpi (by simp)
      case ok stmid =>
        rw [Except.ok.injEq] at hpi
        subst hpi
        obtain ⟨hcl, _⟩ := hbondStep_ok env fh st it stmid hhb
        cases fc with
        | false =>
          rw [clashStep_false, hcl]
          exact hinv
        | true =>
          rw [clashStep_clashes, hcl]
          by_cases hcond : it.model_distance - it.vdw_sum < -0.40 ∧
              check_if_1_5_interaction it.i_seq it.j_seq env.hd_sel env.fsc0 = false
          · rw [if_pos hcond]
            refine ⟨odInsert_keys_nodup _ _ _ hinv.1, ?_⟩
            intro kv hkv
            rcases mem_insert_elim hkv with he | he
            · rw [he]
              exact sortedTuple_fst_lt _ _ (hitems it (List.mem_cons_self _ _))
            · exact hinv.2 kv he
          · rw [if_neg hcond]
            exact hinv

/-- C8: clash-record keys are canonical sorted pairs: `(5, 2)` and `(2, 5)` both
resolve to the stored key `(2, 5)`, and for any run of the pipeline on pairs of
distinct atoms every key of the final registry appears exactly once with its first
component smaller than its second. -/
theorem c8_canonical_keys :
    sortedTuple 5 2 = (2, 5) ∧ sortedTuple 2 5 = (2, 5) ∧
    ∀ (env : Env) (items : List Item) (res : PipelineResult),
      (∀ it ∈ items, it.i_seq ≠ it.j_seq) →
      process_nonbonded_proxies env (some items) true true = Except.ok res →
      ((res.clashes.map Prod.fst).Nodup ∧ ∀ kv ∈ res.clashes, kv.1.1 < kv.1.2) := by
  refine ⟨rfl, rfl, ?_⟩
  intro env items res hne h
  rw [process_nonbonded_proxies_some] at h
  cases hri : runItems env true true initState items <;> simp only [hri] at h
  · exact absurd h (by simp)
  case ok st =>
    cases hpc : process_clashes env st.clashes st.mult <;> simp only [hpc] at h
    · exact absurd h (by simp)
    case ok cl =>
      cases hsc : sort_clashes cl "overlap" <;> simp only [hsc] at h
      · exact absurd h (by simp)
      case ok sortedCl =>
        rw [Except.ok.injEq] at h
        subst h
        have hinv := runItems_clashes_inv env true true items initState st hri hne
          ⟨by simp [initState], by simp [initState]⟩
        have hsub : cl.Sublist st.clashes := by
          unfold process_clashes at hpc
          cases hscn : scanCenters env st.clashes st.mult <;> rw [hscn] at hpc
          · exact absurd hpc (by simp)
          · rw [Except.ok.injEq] at hpc
            exact hpc ▸ applyRemovals_sublist _ _
        have hperm := sort_clashes_perm cl sortedCl "overlap" hsc
        constructor
        · exact ((hperm.map Prod.fst).nodup_iff).2 ((hinv.1).sublist (hsub.map Prod.fst))
        · intro kv hkv
          exact hinv.2 kv (hsub.subset (hperm.mem_iff.1 hkv))

/-- The full-pipeline result on the single boundary pair `item15`. -/
lemma pipeline_item15 :
    process_nonbonded_proxies env0 (some [item15]) true true =
      Except.ok ⟨stC1.clashes, []⟩ := by
  have hri : runItems env0 true true initState [item15] = .ok stC1 := by
    simp [runItems, processItem_item15]
  simp only [process_nonbonded_proxies, hri]
  simp [process_clashes, scanCenters, scanPairs, orderedPairs, applyRemovals,
    sort_clashes, sortByKey, insertByKey, stC1]

/-- C8 witness: the concrete run on the pair discovered as `(5, 2)` stores exactly the
key `(2, 5)`, with no duplicate keys and the first component smaller. -/
theorem c8_witness :
    ((∀ it ∈ [item15], it.i_seq ≠ it.j_seq) ∧
      process_nonbonded_proxies env0 (some [item15]) true true =
        Except.ok ⟨stC1.clashes, []⟩) ∧
    ((stC1.clashes.map Prod.fst).Nodup ∧ ∀ kv ∈ stC1.clashes, kv.1.1 < kv.1.2) := by
  have hne : ∀ it ∈ [item15], it.i_seq ≠ it.j_seq := by
    intro it hit
    rw [List.mem_singleton] at hit
    subst hit
    simp [item15]
  exact ⟨⟨hne, pipeline_item15⟩,
    c8_canonical_keys.2.2 env0 [item15] ⟨stC1.clashes, []⟩ hne pipeline_item15⟩

/-- C10: `cos_vec` is symmetric in its first two arguments, degenerate inputs included,
so the multi-clash resolver's verdict does not depend on the order of the two
non-shared partners. -/
theorem c10_cos_vec_comm : ∀ u v w : Vec3, cos_vec u v w = cos_vec v u w := by
  intro u v w
  have hmid : (Vec3.smul (1 / 2) u).add (Vec3.smul (1 / 2) v) =
      (Vec3.smul (1 / 2) v).add (Vec3.smul (1 / 2) u) := by
    simp only [Vec3.smul, Vec3.add, Vec3.mk.injEq]
    refine ⟨by ring, by ring, by ring⟩
  simp only [cos_vec, hmid]
  rw [Vec3.sub_swap u v, Vec3.length_smul_neg_one, Vec3.normalize_smul_neg_one,
    Vec3.dot_smul_neg_one_right, abs_neg]

lemma vec3_length_axis (a : ℝ) : Vec3.length ⟨a, 0, 0⟩ = |a| := by
  simp only [Vec3.length]
  rw [show a ^ 2 + (0 : ℝ) ^ 2 + (0 : ℝ) ^ 2 = a ^ 2 by ring]
  exact Real.sqrt_sq_eq_abs a

lemma degrees_pi : degrees Real.pi = 180 := by
  simp only [degrees]
  field_simp

lemma hbondXLoop_it71 (hb : HbondDict) :
    hbondXLoop env7 it71 1 ⟨0, 0, 0⟩ 2 ⟨2, 0, 0⟩ hb [0] =
      .ok (true, odInsert hb (0, 1, 2) rec71) := by
  have hxyz0 : env7.xyz 0 = (⟨-1, 0, 0⟩ : Vec3) := rfl
  have hsub_ha : Vec3.sub ⟨0, 0, 0⟩ ⟨2, 0, 0⟩ = (⟨-2, 0, 0⟩ : Vec3) := by
    norm_num [Vec3.sub]
  have hsub_xa : Vec3.sub (env7.xyz 0) ⟨2, 0, 0⟩ = (⟨-3, 0, 0⟩ : Vec3) := by
    rw [hxyz0]
    norm_num [Vec3.sub]
  have hsub_hx : Vec3.sub ⟨0, 0, 0⟩ (env7.xyz 0) = (⟨1, 0, 0⟩ : Vec3) := by
    rw [hxyz0]
    norm_num [Vec3.sub]
  have hha : Vec3.length (⟨-2, 0, 0⟩ : Vec3) = 2 := by
    rw [vec3_length_axis]
    norm_num
  have hxa : Vec3.length (⟨-3, 0, 0⟩ : Vec3) = 3 := by
    rw [vec3_length_axis]
    norm_num
  have hhx : Vec3.length (⟨1, 0, 0⟩ : Vec3) = 1 := by
    rw [vec3_length_axis]
    norm_num
  have hang : vangle ⟨-2, 0, 0⟩ ⟨1, 0, 0⟩ = Real.pi := by
    simp only [vangle, Vec3.dot, hha, hhx]
    rw [show ((-2 : ℝ) * 1 + 0 * 0 + 0 * 0) / (2 * 1) = -1 by norm_num]
    exact Real.arccos_neg_one
  simp only [hbondXLoop, it71, hsub_ha, hsub_xa, hsub_hx, hha, hxa, hhx, hang, degrees_pi]
  norm_num [rec71]

lemma hbondXLoop_it72 (hb : HbondDict) :
    hbondXLoop env7 it72 1 ⟨0, 0, 0⟩ 3 ⟨3 / 2, 0, 0⟩ hb [0] =
      .ok (true, odInsert hb (0, 1, 3) rec72) := by
  have hxyz0 : env7.xyz 0 = (⟨-1, 0, 0⟩ : Vec3) := rfl
  have hsub_ha : Vec3.sub ⟨0, 0, 0⟩ ⟨3 / 2, 0, 0⟩ = (⟨-(3 / 2), 0, 0⟩ : Vec3) := by
    norm_num [Vec3.sub]
  have hsub_xa : Vec3.sub (env7.xyz 0) ⟨3 / 2, 0, 0⟩ = (⟨-(5 / 2), 0, 0⟩ : Vec3) := by
    rw [hxyz0]
    norm_num [Vec3.sub]
  have hsub_hx : Vec3.sub ⟨0, 0, 0⟩ (env7.xyz 0) = (⟨1, 0, 0⟩ : Vec3) := by
    rw [hxyz0]
    norm_num [Vec3.sub]
  have hha : Vec3.length (⟨-(3 / 2), 0, 0⟩ : Vec3) = 3 / 2 := by
    rw [vec3_length_axis]
    norm_num
  have hxa : Vec3.length (⟨-(5 / 2), 0, 0⟩ : Vec3) = 5 / 2 := by
    rw [vec3_length_axis]
    norm_num
  have hhx : Vec3.length (⟨1, 0, 0⟩ : Vec3) = 1 := by
    rw [vec3_length_axis]
    norm_num
  have hang : vangle ⟨-(3 / 2), 0, 0⟩ ⟨1, 0, 0⟩ = Real.pi := by
    simp only [vangle, Vec3.dot, hha, hhx]
    rw [show (-(3 / 2 : ℝ) * 1 + 0 * 0 + 0 * 0) / (3 / 2 * 1) = -1 by norm_num]
    exact Real.arccos_neg_one
  simp only [hbondXLoop, it72, hsub_ha, hsub_xa, hsub_hx, hha, hxa, hhx, hang, degrees_pi]
  norm_num [rec72]

lemma is_hbond_it71 (hb : HbondDict) :
    is_hbond env7 it71 hb = .ok (true, odInsert hb (0, 1, 2) rec71) := by
  have h0 : is_hbond env7 it71 hb =
      hbondXLoop env7 it71 1 (env7.xyz 1) 2 (env7.xyz 2) hb (env7.fsc0 1) := rfl
  rw [h0, show env7.fsc0 1 = [0] from rfl,
    show env7.xyz 1 = (⟨0, 0, 0⟩ : Vec3) from rfl,
    show env7.xyz 2 = (⟨2, 0, 0⟩ : Vec3) from rfl]
  exact hbondXLoop_it71 hb

lemma is_hbond_it72 (hb : HbondDict) :
    is_hbond env7 it72 hb = .ok (true, odInsert hb (0, 1, 3) rec72) := by
  have h0 : is_hbond env7 it72 hb =
      hbondXLoop env7 it72 1 (env7.xyz 1) 3 (env7.xyz 3) hb (env7.fsc0 1) := rfl
  rw [h0, show env7.fsc0 1 = [0] from rfl,
    show env7.xyz 1 = (⟨0, 0, 0⟩ : Vec3) from rfl,
    show env7.xyz 3 = (⟨3 / 2, 0, 0⟩ : Vec3) from rfl]
  exact hbondXLoop_it72 hb

lemma processItem_it71 :
    processItem env7 true true initState it71 = .ok ⟨[], [((0, 1, 2), rec71)], []⟩ := by
  simp only [processItem, hbondStep, if_true]
  rw [if_pos (⟨by norm_num [it71], by decide⟩ :
    it71.model_distance < 3 ∧ hdCount env7 it71 = 1)]
  rw [show initState.hbonds = [] from rfl, is_hbond_it71]
  simp only [odInsert, clashStep, if_true, initState]
  norm_num [it71]

lemma processItem_it72 :
    processItem env7 true true ⟨[], [((0, 1, 2), rec71)], []⟩ it72 =
      .ok ⟨[], [((0, 1, 2), rec71), ((0, 1, 3), rec72)], []⟩ := by
  simp only [processItem, hbondStep, if_true]
  rw [if_pos (⟨by norm_num [it72], by decide⟩ :
    it72.model_distance < 3 ∧ hdCount env7 it72 = 1)]
  rw [is_hbond_it72]
  simp only [odInsert, clashStep, if_true]
  norm_num [it72]

lemma runItems_it7 :
    runItems env7 true true initState [it71, it72] =
      .ok ⟨[], [((0, 1, 2), rec71), ((0, 1, 3), rec72)], []⟩ := by
  simp only [runItems, processItem_it71, processItem_it72]

lemma pipeline_it7 :
    process_nonbonded_proxies env7 (some [it71, it72]) true true = Except.ok res7 := by
  rw [process_nonbonded_proxies_some, runItems_it7]
  simp [process_clashes, scanCenters, applyRemovals, sort_clashes, sortByKey, res7]

lemma hbondXLoop_ok_inv (env : Env) (item : Item) (h_idx : Nat) (h_pos : Vec3)
    (a_idx : Nat) (a_pos : Vec3) :
    ∀ (xs : List Nat) (hb hb2 : HbondDict) (b : Bool),
      hbondXLoop env item h_idx h_pos a_idx a_pos hb xs = .ok (b, hb2) →
      (∀ kv ∈ hb, HbondOK kv.2) → ∀ kv ∈ hb2, HbondOK kv.2 := by
  intro xs
  induction xs with
  | nil =>
    intro hb hb2 b h hin
    simp only [hbondXLoop, Except.ok.injEq, Prod.mk.injEq] at h
    exact h.2 ▸ hin
  | cons x rest ih =>
    intro hb hb2 b h hin
    simp only [hbondXLoop] at h
    split_ifs at h with h1 h2 h3 h4 <;>
    first
      | exact Except.noConfusion h
      | exact ih hb hb2 b h hin
      | (rw [Except.ok.injEq, Prod.mk.injEq] at h
         intro kv hkv
         rw [← h.2] at hkv
         rcases mem_insert_elim hkv with he | he
         · rw [he]
           exact ⟨h2.1.1, h2.1.2, h2.2.1, h2.2.2, h4⟩
         · exact hin kv he)

lemma is_hbond_ok_inv (env : Env) (item : Item) (hb : HbondDict) (b : Bool)
    (hb2 : HbondDict) (h : is_hbond env item hb = .ok (b, hb2))
    (hin : ∀ kv ∈ hb, HbondOK kv.2) : ∀ kv ∈ hb2, HbondOK kv.2 := by
  simp only [is_hbond] at h
  by_cases h1 : (env.water_sel item.i_seq || env.water_sel item.j_seq) = true
  · rw [if_pos h1, Except.ok.injEq, Prod.mk.injEq] at h
    exact h.2 ▸ hin
  · rw [if_neg h1] at h
    by_cases h2 : env.residId item.i_seq = env.residId item.j_seq
    · rw [if_pos h2, Except.ok.injEq, Prod.mk.injEq] at h
      exact h.2 ▸ hin
    · rw [if_neg h2] at h
      cases hr : residue_xyz_ij env item.i_seq item.j_seq item.symop_str item.symop <;>
        simp only [hr] at h
      · exact Except.noConfusion h
      · rename_i val
        obtain ⟨p1, p2⟩ := val
        by_cases h3 : env.hd_sel item.i_seq = true
        · simp only [if_pos h3] at h
          by_cases h5 : strip_upper (env.element item.j_seq) ∈
              (["O", "N", "S", "F", "CL"] : List String)
          · rw [if_pos h5] at h
            exact hbondXLoop_ok_inv env item item.i_seq p1 item.j_seq p2
              (env.fsc0 item.i_seq) hb hb2 b h hin
          · rw [if_neg h5, Except.ok.injEq, Prod.mk.injEq] at h
            exact h.2 ▸ hin
        · by_cases h4 : env.hd_sel item.j_seq = true
          · simp only [if_neg h3, if_pos h4] at h
            by_cases h5 : strip_upper (env.element item.i_seq) ∈
                (["O", "N", "S", "F", "CL"] : List String)
            · rw [if_pos h5] at h
              exact hbondXLoop_ok_inv env item item.j_seq p2 item.i_seq p1
                (env.fsc0 item.j_seq) hb hb2 b h hin
            · rw [if_neg h5, Except.ok.injEq, Prod.mk.injEq] at h
              exact h.2 ▸ hin
          · simp only [if_neg h3, if_neg h4] at h
            exact Except.noConfusion h

lemma clashStep_hbonds (env : Env) (fc : Bool) (st1 : PState) (item : Item) :
    (clashStep env fc st1 item).hbonds = st1.hbonds := by
  simp only [clashStep]
  split_ifs <;> rfl

lemma processItem_ok_inv (env : Env) (fc fh : Bool) (st : PState) (item : Item)
    (st2 : PState) (h : processItem env fc fh st item = .ok st2)
    (hin : ∀ kv ∈ st.hbonds, HbondOK kv.2) : ∀ kv ∈ st2.hbonds, HbondOK kv.2 := by
  unfold processItem at h
  cases hhb : hbondStep env fh st item <;> rw [hhb] at h
  · exact absurd h (by simp)
  case ok st1 =>
    rw [Except.ok.injEq] at h
    subst h
    rw [clashStep_hbonds]
    unfold hbondStep at hhb
    cases fh with
    | false =>
      simp only [Bool.false_eq_true, if_false, Except.ok.injEq] at hhb
      exact hhb ▸ hin
    | true =>
      simp only [if_true] at hhb
      by_cases h2 : item.model_distance < 3 ∧ hdCount env item = 1
      · rw [if_pos h2] at hhb
        cases hib : is_hbond env item st.hbonds <;> rw [hib] at hhb
        · exact absurd hhb (by simp)
        · rename_i r
          rw [Except.ok.injEq] at hhb
          rw [← hhb]
          exact is_hbond_ok_inv env item st.hbonds r.1 r.2 (by rw [hib]) hin
      · rw [if_neg h2, Except.ok.injEq] at hhb
        exact hhb ▸ hin

lemma runItems_ok_inv (env : Env) (fc fh : Bool) :
    ∀ (items : List Item) (st st2 : PState),
      runItems env fc fh st items = .ok st2 →
      (∀ kv ∈ st.hbonds, HbondOK kv.2) → ∀ kv ∈ st2.hbonds, HbondOK kv.2 := by
  intro items
  induction items with
  | nil =>
    intro st st2 h hin
    unfold runItems at h
    rw [Except.ok.injEq] at h
    exact h ▸ hin
  | cons it rest ih =>
    intro st st2 h hin
    unfold runItems at h
    cases hpi : processItem env fc fh st it <;> rw [hpi] at h
    · exact absurd h (by simp)
    case ok st1 =>
      exact ih st1 st2 h (processItem_ok_inv env fc fh st it st1 hpi hin)

/-- C6: every hydrogen-bond record stored by a completed pipeline run satisfies the
three geometric thresholds: H...A in [1.2, 2.2] A, X...A in [2.2, 3.2] A and X-H...A
angle at least 110 degrees; a candidate violating any one of them is never recorded. -/
theorem c6_hbond_thresholds :
    ∀ (env : Env) (pin : Option (List Item)) (fc fh : Bool) (res : PipelineResult),
      process_nonbonded_proxies env pin fc fh = Except.ok res →
      ∀ kv ∈ res.hbonds, HbondOK kv.2 := by
  intro env pin fc fh res h
  cases pin with
  | none => exact absurd h (by simp [process_nonbonded_proxies])
  | some items =>
    rw [process_nonbonded_proxies_some] at h
    cases hri : runItems env fc fh initState items <;> simp only [hri] at h
    · exact absurd h (by simp)
    case ok st =>
      cases hpc : process_clashes env st.clashes st.mult <;> simp only [hpc] at h
      · exact absurd h (by simp)
      case ok cl =>
        cases hsc : sort_clashes cl "overlap" <;> simp only [hsc] at h
        · exact absurd h (by simp)
        case ok s =>
          rw [Except.ok.injEq] at h
          subst h
          exact runItems_ok_inv env fc fh items initState st hri (by simp [initState])

/-- C6 witness: a completed run with an empty hydrogen-bond registry. -/
theorem c6_witness :
    process_nonbonded_proxies env0 (some [item0]) true true = Except.ok ⟨[], []⟩ ∧
    ∀ kv ∈ (⟨[], []⟩ : PipelineResult).hbonds, HbondOK kv.2 :=
  ⟨pipeline_env0, c6_hbond_thresholds env0 (some [item0]) true true ⟨[], []⟩ pipeline_env0⟩

/-- C7 counterexample: the claim says at most one hydrogen-bond record exists per
hydrogen atom across the whole run.  On two candidate pairs sharing hydrogen 1 with two
different acceptors, the completed pipeline stores two records for that hydrogen:
records are keyed `(x, h, a)` and nothing suppresses a second acceptor. -/
theorem c7_counterexample :
    process_nonbonded_proxies env7 (some [it71, it72]) true true = Except.ok res7 ∧
    hbondCountForHydrogen res7.hbonds 1 = 2 := ⟨pipeline_it7, by decide⟩

/-- C7 amended: per `_is_hbond` call (per candidate pair), at most one record is
created: the search over the covalent neighbours of the hydrogen stops at the first X
satisfying the thresholds and inserts exactly one record keyed `(x, h, a)`; across the
run a hydrogen may gain one record per accepted acceptor. -/
theorem c7_first_x_wins :
    ∀ (env : Env) (item : Item) (h_idx : Nat) (h_pos : Vec3) (a_idx : Nat) (a_pos : Vec3)
      (xs : List Nat) (hb hb2 : HbondDict),
      hbondXLoop env item h_idx h_pos a_idx a_pos hb xs = Except.ok (true, hb2) →
      ∃ pre x post, xs = pre ++ x :: post ∧
        (∀ y ∈ pre, ¬ acceptsX env h_pos a_pos y) ∧
        acceptsX env h_pos a_pos x ∧
        hb2 = odInsert hb (x, h_idx, a_idx) (hbondRecordFor env item h_pos a_pos x) := by
  intro env item h_idx h_pos a_idx a_pos xs
  induction xs with
  | nil =>
    intro hb hb2 h
    simp only [hbondXLoop, Except.ok.injEq, Prod.mk.injEq] at h
    exact absurd h.1 (by simp)
  | cons x rest ih =>
    intro hb hb2 h
    simp only [hbondXLoop] at h
    split_ifs at h with h1 h2 h3 h4 <;>
    first
      | exact Except.noConfusion h
      | (rw [Except.ok.injEq, Prod.mk.injEq] at h
         exact ⟨[], x, rest, rfl, fun y hy => absurd hy (List.not_mem_nil y),
           ⟨h2, h3, h4⟩, h.2.symm⟩)
      | (obtain ⟨pre, x1, post, he, hpre, hacc, hres⟩ := ih hb hb2 h
         refine ⟨x :: pre, x1, post, by rw [he, List.cons_append], ?_, hacc, hres⟩
         intro y hy
         rcases List.mem_cons.1 hy with hy1 | hy1
         · subst hy1
           intro hacc2
           first
             | exact h4 hacc2.2.2
             | exact h2 hacc2.1
         · exact hpre y hy1)

/-- C7 witness: the concrete search over the single candidate X = 0 accepts it first
and inserts exactly one record. -/
theorem c7_witness :
    hbondXLoop env7 it71 1 ⟨0, 0, 0⟩ 2 ⟨2, 0, 0⟩ [] [0] =
      Except.ok (true, [((0, 1, 2), rec71)]) ∧
    ∃ pre x post, ([0] : List Nat) = pre ++ x :: post ∧
      (∀ y ∈ pre, ¬ acceptsX env7 ⟨0, 0, 0⟩ ⟨2, 0, 0⟩ y) ∧
      acceptsX env7 ⟨0, 0, 0⟩ ⟨2, 0, 0⟩ x ∧
      [((0, 1, 2), rec71)] =
        odInsert [] (x, 1, 2) (hbondRecordFor env7 it71 ⟨0, 0, 0⟩ ⟨2, 0, 0⟩ x) := by
  have heval : hbondXLoop env7 it71 1 ⟨0, 0, 0⟩ 2 ⟨2, 0, 0⟩ [] [0] =
      Except.ok (true, [((0, 1, 2), rec71)]) := by
    rw [hbondXLoop_it71]
    rfl
  exact ⟨heval,
    c7_first_x_wins env7 it71 1 ⟨0, 0, 0⟩ 2 ⟨2, 0, 0⟩ [0] [] [((0, 1, 2), rec71)] heval⟩

end PNP
